import Mathlib

/-!
Shallow embedding of the douban-top250 crawler (src/main.py, src/config.py).

The pipeline under study: `DoubanScraper._get_page` (fetch with retry),
`DoubanScraper._parse_movie` (per-fragment parsing and filtering),
`DoubanScraper.scrape` (pagination, dedup, counters) and the cleaning part
of `DoubanScraper.save_data`.  HTML fragments are modelled as the tuple of
text values the code reads out of them via BeautifulSoup; Python strings
are Lean strings (lists of unicode scalar chars); the regular expressions
of main.py are translated into explicit scanning functions with matching
leftmost / lazy / greedy behaviour on the character class actually used.
-/

namespace Douban

/-! ## Configuration constants (src/config.py) -/

def MAX_RETRIES : Nat := 3

def COUNTRY_FILTER : List String := ["中国"]

def MIN_YEAR : Int := 1900

def MAX_ITEMS : Nat := 250

def ITEMS_PER_PAGE : Nat := 25

/-! ## Python string primitives -/

/-- Whitespace stripped by Python `str.strip()` and matched by `\s`
(the ASCII whitespace characters plus the two non-ASCII whitespace
code points that occur in this domain: NBSP and ideographic space). -/
def isPySpace (c : Char) : Bool :=
  c = ' ' || c = '\t' || c = '\n' || c = '\r' || c = '\x0b' || c = '\x0c' ||
  c = '\xa0' || c = '　'

/-- Python `str.strip()` on a character list. -/
def pyStripL (cs : List Char) : List Char :=
  ((cs.dropWhile isPySpace).reverse.dropWhile isPySpace).reverse

/-- Python `str.strip()`. -/
def pyStrip (s : String) : String := String.mk (pyStripL s.data)

/-- Does the second list start with the first one (needle, haystack)? -/
def leadsL : List Char → List Char → Bool
  | [], _ => true
  | _ :: _, [] => false
  | n :: ns, h :: hs => n = h && leadsL ns hs

/-- Python substring test `needle in haystack` on character lists. -/
def containsL (needle : List Char) : List Char → Bool
  | [] => leadsL needle []
  | c :: rest => leadsL needle (c :: rest) || containsL needle rest

/-- Python `str.split(sep)` for a one-character separator: splits at every
occurrence, so the empty string yields `[[]]` just as `''.split(c) = ['']`. -/
def splitCh (sep : Char) : List Char → List (List Char)
  | [] => [[]]
  | c :: rest =>
    if c = sep then [] :: splitCh sep rest
    else
      match splitCh sep rest with
      | [] => [[c]]
      | g :: gs => (c :: g) :: gs

/-- Decimal value of a digit string, as Python `int` computes it on a
string that passed `str.isdigit()`. -/
def digitsToNat (cs : List Char) : Nat :=
  cs.foldl (fun a c => a * 10 + (c.toNat - 48)) 0

/-- BeautifulSoup `get_text(sep, strip=True)`: each descendant string is
stripped, empty results are dropped, the rest joined with `sep`.  A
fragment's info paragraph is modelled by its list of descendant strings. -/
def getText (sep : String) (texts : List String) : String :=
  String.intercalate sep ((texts.map pyStrip).filter (fun t => t ≠ ""))

/-! ## Director extraction (src/main.py lines 186-207)

The code runs `re.search(r'导演:(.*?)(?:\xa0|$)', director_text)`: the
group is lazy, `.` does not match a newline, the terminator alternation
tries the NBSP character U+00A0 first and then `$` (end of string, or just
before a single trailing newline). -/

/-- Lazy group of the director pattern, evaluated on the text that follows
a `导演:` occurrence: the shortest newline-free prefix whose successor
position carries the terminator `(?:\xa0|$)`. -/
def lazyGroup : List Char → Option (List Char)
  | [] => some []
  | c :: rest =>
    if c = '\xa0' then some []
    else if c = '\n' ∧ rest = [] then some []
    else if c = '\n' then none
    else
      match lazyGroup rest with
      | some g => some (c :: g)
      | none => none

/-- Leftmost search of `re.search(r'导演:(.*?)(?:\xa0|$)', _)`: scan for an
occurrence of `导演:` at which the lazy group matches; on failure the scan
resumes at the next position, as the regex engine does. -/
def findDirGroup : List Char → Option (List Char)
  | [] => none
  | c :: rest =>
    if leadsL "导演:".data (c :: rest) then
      match lazyGroup ((c :: rest).drop 3) with
      | some g => some g
      | none => findDirGroup rest
    else findDirGroup rest

/-- CJK ideograph range `[一-鿿]` of the source regexes. -/
def isCJK (c : Char) : Bool := 0x4e00 ≤ c.toNat && c.toNat ≤ 0x9fff

/-- Character class `[一-鿿·]` (the range plus the middle dot). -/
def isCJKDot (c : Char) : Bool := isCJK c || c = '·'

/-- Fuel-indexed body of `re.sub(r'([一-鿿·]+).*', r'\1', name)`:
each match starts at the next CJK-or-dot character, keeps that maximal run
and deletes the greedy `.*` tail (up to a newline or the end); unmatched
characters are copied through.  Fuel bounds the recursion; it is called
with the input length, which suffices because every step consumes at least
one character. -/
def cjkSubF : Nat → List Char → List Char
  | 0, _ => []
  | _ + 1, [] => []
  | fuel + 1, c :: rest =>
    if isCJKDot c then
      (c :: rest).takeWhile isCJKDot ++
        cjkSubF fuel (((c :: rest).dropWhile isCJKDot).dropWhile (fun d => d ≠ '\n'))
    else c :: cjkSubF fuel rest

/-- The substitution `re.sub(r'([一-鿿·]+).*', r'\1', name)`. -/
def cjkSub (cs : List Char) : List Char := cjkSubF cs.length cs

/-- Per-name cleanup of lines 197-200: prefer the substituted form when it
still holds a CJK ideograph, else keep the whole (stripped) name. -/
def cleanName (name : List Char) : List Char :=
  let cp := cjkSub name
  if cp.any isCJK then pyStripL cp else pyStripL name

/-- Director field of lines 186-207, from the concatenated paragraph text:
split the matched group on `/`, clean each name, drop empties, join with
`" / "`; the sentinel `未知导演` when nothing survives or nothing matched. -/
def directorOf (director_text : String) : String :=
  match findDirGroup director_text.data with
  | none => "未知导演"
  | some g =>
    let ds := ((splitCh '/' g).map (fun raw => cleanName (pyStripL raw))).filter
      (fun n => n ≠ [])
    if ds.isEmpty then "未知导演"
    else String.intercalate " / " (ds.map String.mk)

/-- Leftmost match of `re.search(r'\d{4}', _)`: the first four consecutive
digits, rendered back as a string; `none` when absent. -/
def find4Digits : List Char → Option String
  | [] => none
  | c :: rest =>
    if ((c :: rest).take 4).length = 4 ∧ ((c :: rest).take 4).all Char.isDigit then
      some (String.mk ((c :: rest).take 4))
    else find4Digits rest

/-! ## Country extraction (src/main.py lines 214-232)

`re.findall(r'/\s*([^/\n]+?)\s*/', country_line)` on a newline-free line
(it is one segment of a split on newlines): every non-overlapping pair of
slashes with at least one character between them yields a match whose
group is the between-text with surrounding whitespace assigned to the
`\s*` parts — i.e. the stripped between-text, except that an all-space
between-text leaves exactly one space character in the group. -/

/-- Captured group for the between-text of one slash pair (nonempty). -/
def wsGroup (m : List Char) : List Char :=
  if m.any (fun c => !(isPySpace c)) then pyStripL m
  else
    match m.reverse with
    | [] => []
    | c :: _ => [c]

/-- Fuel-indexed scan of the findall: at each slash look for the closing
slash; an empty between-text fails and the scan resumes at the closing
slash, a match resumes after its closing slash.  Fuel is the input length;
every step consumes at least one character. -/
def slashTokensF : Nat → List Char → List (List Char)
  | 0, _ => []
  | _ + 1, [] => []
  | fuel + 1, c :: rest =>
    if c = '/' then
      match rest.dropWhile (fun d => d ≠ '/') with
      | [] => []
      | _ :: tail =>
        let m := rest.takeWhile (fun d => d ≠ '/')
        if m.isEmpty then slashTokensF fuel rest
        else wsGroup m :: slashTokensF fuel tail
    else slashTokensF fuel rest

/-- All groups of `re.findall(r'/\s*([^/\n]+?)\s*/', line)`. -/
def slashTokens (cs : List Char) : List (List Char) := slashTokensF cs.length cs

/-- The country token the code ends up comparing against the allow-list:
`country_matches[-1].strip()`. -/
def extractedCountry (line : List Char) : List Char :=
  pyStripL ((slashTokens line).getLastD [])

/-- True when none of the allow-list keywords occurs as a substring of the
country token: `not any(keyword in country for keyword in COUNTRY_FILTER)`. -/
def noKeywordMatch (cf : List String) (country : List Char) : Bool :=
  !(cf.any fun k => containsL k.data country)

/-- Decision of the country block (lines 220-232) on the second line of
the paragraph text, given the configured allow-list: `true` means the item
is dropped there with the filtered flag.  No extractable token always
drops; an extractable token drops exactly when the allow-list is nonempty
and no keyword matches. -/
def countryFiltered (cf : List String) (line : List Char) : Bool :=
  let ms := slashTokens line
  if ms.isEmpty then true
  else !cf.isEmpty && noKeywordMatch cf (extractedCountry line)

/-! ## Fragments and records -/

/-- One listing item as the code observes it through BeautifulSoup:
the text of `span.title` when present, whether `div.bd` was found, the
descendant strings of the first `p` inside it when present, the text of
`span.rating_num` when present, and the text of the vote-count span when
present. -/
structure Fragment where
  titleTag : Option String
  hasInfo : Bool
  pTexts : Option (List String)
  ratingTag : Option String
  numTag : Option String
deriving DecidableEq

/-- One parsed movie, the dict built at lines 250-256.  The rating is a
rational standing for the Python float; the year is kept as the matched
string (possibly empty), as in the code. -/
structure MovieRecord where
  title : String
  director : String
  year : String
  rating : Rat
  num : Nat
deriving DecidableEq

/-- Vote count of lines 243-248: strip, delete the characters `人评价,`,
and convert when the remainder is a nonempty digit string, else 0. -/
def numOf (item : Fragment) : Nat :=
  match item.numTag with
  | some t =>
    let numStr := (pyStrip t).data.filter
      (fun c => !(c = '人' || c = '评' || c = '价' || c = ','))
    if !numStr.isEmpty && numStr.all Char.isDigit then digitsToNat numStr else 0
  | none => 0

/-- Rating and vote-count tail of `_parse_movie` (lines 238-256).  The
Python `float` conversion is the oracle `fp`; when the rating element is
present and the conversion fails, the `ValueError` reaches the handler of
lines 258-260, which returns `(None, True)`.  An absent rating element
yields 0.0 without calling the conversion. -/
def finishRecord (fp : String → Option Rat) (item : Fragment)
    (title director year : String) : Option MovieRecord × Bool :=
  match item.ratingTag with
  | some rt =>
    match fp (pyStrip rt) with
    | some r => (some ⟨title, director, year, r, numOf item⟩, false)
    | none => (none, true)
  | none => (some ⟨title, director, year, 0, numOf item⟩, false)

/-- Title of lines 176-178: the stripped tag text or the placeholder
`无标题`, truncated at the first `/` and stripped again. -/
def titleOf (item : Fragment) : String :=
  pyStrip (String.mk ((splitCh '/'
    (match item.titleTag with
      | some t => pyStrip t
      | none => "无标题").data).headD []))

/-- The lines of `director_p.get_text('\n', strip=True).split('\n')`
(lines 214-216). -/
def pLines (texts : List String) : List (List Char) :=
  splitCh '\n' (getText "\n" texts).data

/-- `DoubanScraper._parse_movie` (lines 165-260), with the Python `float`
conversion abstracted as `fp` and the configured allow-list as `cf`.
Returns the pair `(movie data or None, filtered flag)` of the source. -/
def parse_movie (fp : String → Option Rat) (cf : List String) (item : Fragment) :
    Option MovieRecord × Bool :=
  if item.hasInfo = false then (none, true)
  else
    match item.pTexts with
    | some texts =>
      if 1 < (pLines texts).length ∧ countryFiltered cf ((pLines texts).getD 1 [])
      then (none, true)
      else
        finishRecord fp item (titleOf item) (directorOf (getText "" texts))
          ((find4Digits (getText "" texts).data).getD "")
    | none => finishRecord fp item (titleOf item) "未知导演" ""

/-! ## Orchestrator (src/main.py lines 262-303) -/

/-- Accumulator of `scrape`: accepted records in order, the filtered
counter, and the dedup set of seen titles. -/
structure ScrapeState where
  movies : List MovieRecord
  filteredCount : Nat
  seen : List String
deriving DecidableEq

def initState : ScrapeState := ⟨[], 0, []⟩

/-- Body of the inner loop of `scrape` (lines 285-300) for one item:
a record with an already-seen title counts as filtered; a new record is
appended and its title remembered; `(None, False)` only logs; `(None,
True)` counts as filtered. -/
def scrapeItem (fp : String → Option Rat) (cf : List String)
    (st : ScrapeState) (item : Fragment) : ScrapeState :=
  match parse_movie fp cf item with
  | (some md, _) =>
    if md.title ∈ st.seen then
      { st with filteredCount := st.filteredCount + 1 }
    else
      { st with movies := st.movies ++ [md], seen := md.title :: st.seen }
  | (none, false) => st
  | (none, true) => { st with filteredCount := st.filteredCount + 1 }

/-- One page of the outer loop: a failed fetch (`None`) is skipped, a
fetched page folds the item loop over its fragments. -/
def scrapePage (fp : String → Option Rat) (cf : List String)
    (st : ScrapeState) (page : Option (List Fragment)) : ScrapeState :=
  match page with
  | none => st
  | some items => items.foldl (scrapeItem fp cf) st

/-- `DoubanScraper.scrape` over an explicit list of fetch outcomes, one
per page offset. -/
def scrape (fp : String → Option Rat) (cf : List String)
    (pages : List (Option (List Fragment))) : ScrapeState :=
  pages.foldl (scrapePage fp cf) initState

/-- Page offsets `range(0, MAX_ITEMS, ITEMS_PER_PAGE)` of line 276. -/
def pageStarts : List Nat :=
  (List.range ((MAX_ITEMS + ITEMS_PER_PAGE - 1) / ITEMS_PER_PAGE)).map
    (· * ITEMS_PER_PAGE)

/-- A full run of `scrape`, the fetcher abstracted as a map from the page
offset to its outcome. -/
def scrapeRun (fp : String → Option Rat) (cf : List String)
    (fetch : Nat → Option (List Fragment)) : ScrapeState :=
  scrape fp cf (pageStarts.map fetch)

/-! ## Fetcher (src/main.py lines 127-163) -/

/-- Exception classes relevant to `_get_page`: every failure the body can
raise is a `requests.exceptions.RequestException`, the one class its
handler catches. -/
inductive FailClass where
  | requestException
deriving DecidableEq

/-- Outcome of one `requests.get` call: a raised network/timeout error, or
a response with its final resolved URL, whether the status was 2xx, and
the body text. -/
inductive Attempt where
  | netError
  | response (url : String) (ok : Bool) (text : String)
deriving DecidableEq

/-- Body of one attempt (lines 144-156): `raise_for_status` raises on a
non-2xx status; a resolved URL containing `accounts.douban.com` raises the
same `RequestException` class; otherwise the body text is returned (the
BeautifulSoup step is the identity in this model). -/
def attemptFetch : Attempt → Except FailClass String
  | .netError => .error .requestException
  | .response url ok text =>
    if !ok then .error .requestException
    else if containsL "accounts.douban.com".data url.data then
      .error .requestException
    else .ok text

/-- `DoubanScraper._get_page`: on a caught `RequestException`, recurse
with `retry + 1` while `retry < maxRetries`, else return `None`. The
attempt oracle is indexed by the retry counter. -/
def get_page (att : Nat → Attempt) (maxRetries retry : Nat) : Option String :=
  match attemptFetch (att retry) with
  | .ok text => some text
  | .error .requestException =>
    if retry < maxRetries then get_page att maxRetries (retry + 1) else none
termination_by maxRetries - retry
decreasing_by omega

/-- Number of `requests.get` calls a `get_page` invocation performs (each
attempt writes one log line, so this is an observable of the run). -/
def get_page_attempts (att : Nat → Attempt) (maxRetries retry : Nat) : Nat :=
  match attemptFetch (att retry) with
  | .ok _ => 1
  | .error .requestException =>
    if retry < maxRetries then 1 + get_page_attempts att maxRetries (retry + 1) else 1
termination_by maxRetries - retry
decreasing_by omega

/-! ## Cleaning pass (src/main.py lines 314-327) -/

/-- Numeric coercion `pd.to_numeric(_, errors='coerce')` on the year
strings this pipeline produces (the empty string or a run of digits from
the `\d{4}` match): a nonempty digit string converts, anything else
becomes missing. -/
def toNumericYear (s : String) : Option Int :=
  if s.data ≠ [] ∧ s.data.all Char.isDigit then some (digitsToNat s.data) else none

/-- The row-keeping predicate of line 319: the coerced year exists and
`between(MIN_YEAR, currentYear)` holds (inclusive on both ends; a missing
value compares false). -/
def yearOK (currentYear : Int) (m : MovieRecord) : Bool :=
  match toNumericYear m.year with
  | some y => decide (MIN_YEAR ≤ y) && decide (y ≤ currentYear)
  | none => false

/-- `drop_duplicates(subset=['中文电影名'], keep='first')`. -/
def dedupTitles (seen : List String) : List MovieRecord → List MovieRecord
  | [] => []
  | m :: rest =>
    if m.title ∈ seen then dedupTitles seen rest
    else m :: dedupTitles (m.title :: seen) rest

/-- The cleaning part of `save_data`: keep rows whose year coerces and
lies in `[MIN_YEAR, currentYear]`, then dedup by title keeping the first. -/
def save_clean (currentYear : Int) (movies : List MovieRecord) : List MovieRecord :=
  dedupTitles [] (movies.filter (yearOK currentYear))

/-- A float oracle that always fails, standing for runs where every
`float()` call raises. -/
def noFloat : String → Option Rat := fun _ => none

/-! ## Spec-modelled director terminator

The spec describes the director segment as "terminated by a double-space
or end-of-text".  The source regex terminator is `(?:\xa0|$)` — a single
NBSP — so for comparison the spec's wording is modelled separately here. -/

/-- Modelled from the spec: lazy group under the terminator "a double
space or end-of-text", i.e. the shortest newline-free prefix followed by
two space characters or the end. -/
def specLazyGroup : List Char → Option (List Char)
  | [] => some []
  | c :: rest =>
    if c = ' ' ∧ rest.headD '·' = ' ' then some []
    else if c = '\n' ∧ rest = [] then some []
    else if c = '\n' then none
    else
      match specLazyGroup rest with
      | some g => some (c :: g)
      | none => none

/-- Modelled from the spec: leftmost `导演:` occurrence at which the
double-space-terminated group matches. -/
def specFindDirGroup : List Char → Option (List Char)
  | [] => none
  | c :: rest =>
    if leadsL "导演:".data (c :: rest) then
      match specLazyGroup ((c :: rest).drop 3) with
      | some g => some g
      | none => specFindDirGroup rest
    else specFindDirGroup rest

/-- Modelled from the spec: director extraction with the spec's
double-space terminator; the remaining steps (split on `/`, CJK-preferred
cleanup, sentinel) are as in the source. -/
def specDirectorOf (director_text : String) : String :=
  match specFindDirGroup director_text.data with
  | none => "未知导演"
  | some g =>
    let ds := ((splitCh '/' g).map (fun raw => cleanName (pyStripL raw))).filter
      (fun n => n ≠ [])
    if ds.isEmpty then "未知导演"
    else String.intercalate " / " (ds.map String.mk)

/-! ## Invariant of the dedup loop -/

/-- Titles of the accepted records are pairwise distinct and all recorded
in the seen set. -/
def TitleInv (st : ScrapeState) : Prop :=
  (st.movies.map MovieRecord.title).Nodup ∧
    ∀ t ∈ st.movies.map MovieRecord.title, t ∈ st.seen

/-! ## Helper lemmas -/

theorem scrapeItem_inv (fp : String → Option Rat) (cf : List String)
    (st : ScrapeState) (item : Fragment) (h : TitleInv st) :
    TitleInv (scrapeItem fp cf st item) := by
  unfold scrapeItem
  rcases hp : parse_movie fp cf item with ⟨o, b⟩
  rcases o with _ | md
  · cases b <;> exact h
  · by_cases hmem : md.title ∈ st.seen
    · simp only [hmem, if_pos]
      exact h
    · simp only [hmem, if_neg, not_false_iff]
      refine ⟨?_, ?_⟩
      · rw [List.map_append]
        rw [List.nodup_append]
        refine ⟨h.1, List.nodup_singleton _, ?_⟩
        intro t ht ht'
        rcases List.mem_singleton.mp ht' with rfl
        exact hmem (h.2 _ ht)
      · intro t ht
        rw [List.map_append, List.mem_append] at ht
        rcases ht with ht | ht
        · exact List.mem_cons_of_mem _ (h.2 t ht)
        · rcases List.mem_singleton.mp ht with rfl
          exact List.mem_cons_self _ _

theorem foldl_titleInv {α : Type} (f : ScrapeState → α → ScrapeState)
    (hf : ∀ st a, TitleInv st → TitleInv (f st a)) :
    ∀ (l : List α) (st : ScrapeState), TitleInv st → TitleInv (l.foldl f st) := by
  intro l
  induction l with
  | nil => intro st h; exact h
  | cons a rest ih => intro st h; exact ih (f st a) (hf st a h)

theorem scrapePage_inv (fp : String → Option Rat) (cf : List String)
    (st : ScrapeState) (page : Option (List Fragment)) (h : TitleInv st) :
    TitleInv (scrapePage fp cf st page) := by
  unfold scrapePage
  cases page with
  | none => exact h
  | some items => exact foldl_titleInv _ (scrapeItem_inv fp cf) items st h

theorem mem_dedupTitles (m : MovieRecord) :
    ∀ (l : List MovieRecord) (seen : List String),
      m ∈ dedupTitles seen l → m ∈ l := by
  intro l
  induction l with
  | nil => intro seen h; exact absurd h (List.not_mem_nil m)
  | cons a rest ih =>
    intro seen h
    unfold dedupTitles at h
    by_cases ha : a.title ∈ seen
    · rw [if_pos ha] at h
      exact List.mem_cons_of_mem _ (ih seen h)
    · rw [if_neg ha] at h
      rcases List.mem_cons.mp h with rfl | h
      · exact List.mem_cons_self _ _
      · exact List.mem_cons_of_mem _ (ih _ h)

theorem finishRecord_cases (fp : String → Option Rat) (item : Fragment)
    (t d y : String) :
    finishRecord fp item t d y = (none, true) ∨
      ∃ r, finishRecord fp item t d y = (some r, false) := by
  cases hrt : item.ratingTag with
  | none =>
    exact Or.inr ⟨⟨t, d, y, 0, numOf item⟩, by simp [finishRecord, hrt]⟩
  | some rt =>
    cases hfp : fp (pyStrip rt) with
    | none => exact Or.inl (by simp [finishRecord, hrt, hfp])
    | some r =>
      exact Or.inr ⟨⟨t, d, y, r, numOf item⟩, by simp [finishRecord, hrt, hfp]⟩

theorem parse_movie_noinfo (fp : String → Option Rat) (cf : List String)
    (item : Fragment) (hi : item.hasInfo = false) :
    parse_movie fp cf item = (none, true) := by
  simp only [parse_movie, if_pos hi]

theorem parse_movie_nop (fp : String → Option Rat) (cf : List String)
    (item : Fragment) (hi : ¬ item.hasInfo = false) (hpt : item.pTexts = none) :
    parse_movie fp cf item = finishRecord fp item (titleOf item) "未知导演" "" := by
  simp only [parse_movie, hpt, if_neg hi]

theorem parse_movie_reduce (fp : String → Option Rat) (cf : List String)
    (item : Fragment) (texts : List String) (hi : ¬ item.hasInfo = false)
    (hpt : item.pTexts = some texts) :
    parse_movie fp cf item =
      if 1 < (pLines texts).length ∧ countryFiltered cf ((pLines texts).getD 1 [])
      then (none, true)
      else finishRecord fp item (titleOf item) (directorOf (getText "" texts))
        ((find4Digits (getText "" texts).data).getD "") := by
  simp only [parse_movie, hpt, if_neg hi]

theorem get_page_retry_step (att : Nat → Attempt) (maxR r : Nat)
    (he : attemptFetch (att r) = Except.error FailClass.requestException)
    (hlt : r < maxR) :
    get_page att maxR r = get_page att maxR (r + 1) := by
  conv_lhs => unfold get_page
  rw [he]
  simp [hlt]

theorem get_page_fail_aux (att : Nat → Attempt) (M : Nat)
    (h : ∀ i, attemptFetch (att i) = Except.error FailClass.requestException) :
    ∀ (k r : Nat), M - r ≤ k →
      get_page att M r = none ∧ get_page_attempts att M r = (M - r) + 1 := by
  intro k
  induction k with
  | zero =>
    intro r hr
    have hlt : ¬ r < M := by omega
    constructor
    · unfold get_page
      rw [h r]
      simp [hlt]
    · unfold get_page_attempts
      rw [h r]
      simp [hlt]
      omega
  | succ k ih =>
    intro r hr
    by_cases hlt : r < M
    · have hrec := ih (r + 1) (by omega)
      constructor
      · unfold get_page
        rw [h r]
        simp [hlt, hrec.1]
      · unfold get_page_attempts
        rw [h r]
        simp [hlt, hrec.2]
        omega
    · constructor
      · unfold get_page
        rw [h r]
        simp [hlt]
      · unfold get_page_attempts
        rw [h r]
        simp [hlt]
        omega

/-! ## Claims -/

/-- C1 (amended): in every run of the pipeline no two accepted records
share a title — the seen-titles set keyed on the title dedups across all
pages.  Non-emptiness of the title is not guaranteed by the code: see the
counterexample `scrape_accepts_empty_title`. -/
theorem scrape_titles_nodup (fp : String → Option Rat) (cf : List String)
    (fetch : Nat → Option (List Fragment)) :
    ((scrapeRun fp cf fetch).movies.map MovieRecord.title).Nodup := by
  have h0 : TitleInv initState :=
    ⟨List.nodup_nil, fun t ht => absurd ht (List.not_mem_nil t)⟩
  exact (foldl_titleInv _ (fun st p => scrapePage_inv fp cf st p)
    (pageStarts.map fetch) initState h0).1

/-- C1 counterexample: a fragment whose title element text is `"/"` is
accepted with an empty title (the fallback placeholder only covers an
absent title element, not a blank first `/`-segment). -/
theorem scrape_accepts_empty_title :
    (scrape noFloat COUNTRY_FILTER
        [some [⟨some "/", true, none, none, none⟩]]).movies.map MovieRecord.title
      = [""] := by decide

/-- C2 (amended): `_parse_movie` only ever returns an accepted record with
flag `False`, or `(None, True)`; in particular an unexpected parse error
returns `(None, True)` — counted as filtered — and the `(None, False)`
outcome (the orchestrator's parse-failure branch) never occurs. -/
theorem parse_movie_never_none_false (fp : String → Option Rat)
    (cf : List String) (item : Fragment) :
    parse_movie fp cf item = (none, true) ∨
      ∃ r, parse_movie fp cf item = (some r, false) := by
  by_cases hi : item.hasInfo = false
  · exact Or.inl (parse_movie_noinfo fp cf item hi)
  · rcases hpt : item.pTexts with _ | texts
    · rw [parse_movie_nop fp cf item hi hpt]
      exact finishRecord_cases fp item _ _ _
    · rw [parse_movie_reduce fp cf item texts hi hpt]
      by_cases hc : 1 < (pLines texts).length ∧
          countryFiltered cf ((pLines texts).getD 1 []) = true
      · rw [if_pos hc]
        exact Or.inl rfl
      · rw [if_neg hc]
        exact finishRecord_cases fp item _ _ _

/-- C2 counterexample: a fragment whose rating text makes the `float`
conversion raise is returned as `(None, True)`, not the `(None, False)`
the claim states for the unexpected-error path. -/
theorem parse_error_returns_filtered_flag :
    parse_movie noFloat COUNTRY_FILTER
        (⟨some "戊", true, none, some "bad", none⟩ : Fragment) = (none, true) ∧
    parse_movie noFloat COUNTRY_FILTER
        (⟨some "戊", true, none, some "bad", none⟩ : Fragment) ≠ (none, false) := by
  decide

/-- C3 (amended): a fragment with an absent info block yields `(None,
True)` — the same signal as a deliberate filter — and the orchestrator
counts it in the same filtered counter; malformed items are not counted
separately from filtered ones. -/
theorem malformed_counted_as_filtered (fp : String → Option Rat)
    (cf : List String) (st : ScrapeState) (item : Fragment)
    (h : item.hasInfo = false) :
    parse_movie fp cf item = (none, true) ∧
    scrapeItem fp cf st item = { st with filteredCount := st.filteredCount + 1 } := by
  have hp : parse_movie fp cf item = (none, true) := by
    simp [parse_movie, h]
  exact ⟨hp, by simp [scrapeItem, hp]⟩

/-- C3 witness at concrete inputs. -/
theorem malformed_counted_as_filtered_w :
    parse_movie noFloat COUNTRY_FILTER
        (⟨some "甲", false, none, none, none⟩ : Fragment) = (none, true) ∧
    scrapeItem noFloat COUNTRY_FILTER initState
        (⟨some "甲", false, none, none, none⟩ : Fragment)
      = { initState with filteredCount := initState.filteredCount + 1 } :=
  malformed_counted_as_filtered noFloat COUNTRY_FILTER initState
    (⟨some "甲", false, none, none, none⟩ : Fragment) rfl

/-- C3 counterexample: an info-less (malformed) fragment and a
country-filtered fragment produce the identical `(None, True)` signal, and
each bumps the same `filtered_count` counter of the orchestrator. -/
theorem malformed_and_filtered_same_signal :
    parse_movie noFloat COUNTRY_FILTER
        (⟨some "甲", false, none, none, none⟩ : Fragment) = (none, true) ∧
    parse_movie noFloat COUNTRY_FILTER
        (⟨some "乙", true, some ["导演: 丙", "1994 / 美国 / 剧情"], none, none⟩ :
          Fragment) = (none, true) ∧
    (scrape noFloat COUNTRY_FILTER
        [some [⟨some "甲", false, none, none, none⟩]]).filteredCount = 1 ∧
    (scrape noFloat COUNTRY_FILTER
        [some [⟨some "乙", true, some ["导演: 丙", "1994 / 美国 / 剧情"], none,
          none⟩]]).filteredCount = 1 := by
  decide

/-- C4 (amended): with an empty allow-list the keyword check never
filters, but the country block still filters exactly the lines with no
extractable `/`-delimited token; the check is not skipped entirely. -/
theorem empty_allowlist_filters_iff_no_token (line : List Char) :
    countryFiltered [] line = (slashTokens line).isEmpty := by
  unfold countryFiltered
  cases h : (slashTokens line).isEmpty <;> simp [h]

/-- C4 counterexample: with the empty allow-list, a fragment whose second
metadata line has no extractable token is filtered, while the same
fragment with a tokenised second line is accepted. -/
theorem empty_allowlist_still_filters_no_token :
    parse_movie noFloat []
        (⟨some "己", true, some ["导演: 庚", "1994 美国"], none, none⟩ : Fragment)
      = (none, true) ∧
    (parse_movie noFloat []
        (⟨some "己", true, some ["导演: 庚", "1994 / 美国 / 剧情"], none, none⟩ :
          Fragment)).2 = false := by
  decide

/-- C5: with a nonempty allow-list the country path filters an item iff no
token is extractable from the line, or no allow-list keyword occurs as a
substring of the extracted country token. -/
theorem nonempty_allowlist_filter_iff (cf : List String) (line : List Char)
    (h : cf ≠ []) :
    countryFiltered cf line = true ↔
      slashTokens line = [] ∨
        ∀ k ∈ cf, containsL k.data (extractedCountry line) = false := by
  have hcf : cf.isEmpty = false := by
    cases cf with
    | nil => exact absurd rfl h
    | cons a l => rfl
  unfold countryFiltered noKeywordMatch
  cases hms : slashTokens line with
  | nil => simp [hms]
  | cons a l =>
    simp only [hms, List.isEmpty_cons, if_neg, Bool.false_eq_true,
      not_false_iff, hcf, Bool.not_false, Bool.true_and]
    constructor
    · intro hb
      right
      intro k hk
      by_contra hco
      have hk2 : containsL k.data (extractedCountry line) = true := by
        cases hx : containsL k.data (extractedCountry line) with
        | false => exact absurd hx hco
        | true => rfl
      have hany : (cf.any fun k2 => containsL k2.data (extractedCountry line)) = true :=
        List.any_eq_true.mpr ⟨k, hk, hk2⟩
      rw [hany] at hb
      exact absurd hb (by decide)
    · intro hd
      rcases hd with hd | hd
      · exact absurd hd (by simp)
      · have hany : (cf.any fun k2 => containsL k2.data (extractedCountry line))
            = false := by
          by_contra hx
          have hx2 : (cf.any fun k2 => containsL k2.data (extractedCountry line))
              = true := by
            cases hy : (cf.any fun k2 => containsL k2.data (extractedCountry line)) with
            | false => exact absurd hy hx
            | true => rfl
          rcases List.any_eq_true.mp hx2 with ⟨k, hk, hck⟩
          rw [hd k hk] at hck
          exact absurd hck (by decide)
        rw [hany]
        rfl

/-- C5 witness at concrete inputs. -/
theorem nonempty_allowlist_filter_iff_w :
    countryFiltered ["中国"] "1994 / 美国 / 剧情".data = true :=
  (nonempty_allowlist_filter_iff ["中国"] "1994 / 美国 / 剧情".data
    (by decide)).mpr (by decide)

/-- C6: when every attempt raises a transient failure, `_get_page`
performs `maxRetries + 1` attempts (the original plus exactly
`maxRetries` retries) and returns the failure value `None`; when the
first attempt succeeds, a single attempt is performed (zero retries). -/
theorem fetch_retry_count (att : Nat → Attempt) (M : Nat) (t : String) :
    ((∀ i, attemptFetch (att i) = Except.error FailClass.requestException) →
      get_page att M 0 = none ∧ get_page_attempts att M 0 = M + 1)
    ∧ (attemptFetch (att 0) = Except.ok t →
      get_page att M 0 = some t ∧ get_page_attempts att M 0 = 1) := by
  constructor
  · intro h
    have := get_page_fail_aux att M h M 0 (by omega)
    simpa using this
  · intro h
    constructor
    · unfold get_page
      rw [h]
    · unfold get_page_attempts
      rw [h]

/-- C6 witness: with the configured `MAX_RETRIES = 3` and every attempt a
network error, four attempts happen and the result is `None`. -/
theorem fetch_retry_count_w :
    get_page (fun _ => Attempt.netError) MAX_RETRIES 0 = none ∧
    get_page_attempts (fun _ => Attempt.netError) MAX_RETRIES 0 = MAX_RETRIES + 1 :=
  (fetch_retry_count (fun _ => Attempt.netError) MAX_RETRIES "x").1 (fun _ => rfl)

/-- C7: a 200 response whose resolved URL contains the
authentication-challenge host raises the same `RequestException` class as
a network error — never a success — and `_get_page` therefore retries it
like any transient failure. -/
theorem challenge_host_is_failure (url text : String)
    (h : containsL "accounts.douban.com".data url.data = true) :
    attemptFetch (Attempt.response url true text)
        = Except.error FailClass.requestException
    ∧ attemptFetch Attempt.netError = Except.error FailClass.requestException
    ∧ ∀ (att : Nat → Attempt) (maxR r : Nat),
        att r = Attempt.response url true text → r < maxR →
        get_page att maxR r = get_page att maxR (r + 1) := by
  have h1 : attemptFetch (Attempt.response url true text)
      = Except.error FailClass.requestException := by
    simp [attemptFetch, h]
  refine ⟨h1, rfl, ?_⟩
  intro att maxR r hr hlt
  exact get_page_retry_step att maxR r (by rw [hr]; exact h1) hlt

/-- C7 witness at a concrete challenge URL. -/
theorem challenge_host_is_failure_w :
    attemptFetch (Attempt.response "https://accounts.douban.com/passport/login"
        true "<html>")
      = Except.error FailClass.requestException :=
  (challenge_host_is_failure "https://accounts.douban.com/passport/login"
    "<html>" (by decide)).1

/-- C8 (amended): on the metadata text `导演: 王家卫 主演: 张国荣` the
director extracted is `王家卫`; the director segment is terminated by a
non-breaking space (U+00A0) or the end of the text (not by a double
space), names are split on `/`, the CJK substring is preferred with the
trailing non-CJK annotation trimmed, and the sentinel is used only when no
name survives. -/
theorem director_scenario_a_nbsp :
    directorOf "导演: 王家卫 主演: 张国荣" = "王家卫" ∧
    directorOf "导演: 王家卫\xa0主演: 张国荣" = "王家卫" := by decide

/-- C8 counterexample: the code does not terminate the director segment at
a double space — on `导演: Abc  Def` the double-space rule of the claim
yields `Abc`, while the code captures through to the end of the text. -/
theorem director_double_space_mismatch :
    specDirectorOf "导演: Abc  Def" = "Abc" ∧
    directorOf "导演: Abc  Def" = "Abc  Def" := by decide

/-- C9: every record surviving the cleaning pass has a year that coerces
to a numeric value within `[MIN_YEAR, currentYear]`, and every record
failing that is dropped. -/
theorem clean_year_bounds (cur : Int) (movies : List MovieRecord)
    (m : MovieRecord) :
    (m ∈ save_clean cur movies →
      ∃ y, toNumericYear m.year = some y ∧ MIN_YEAR ≤ y ∧ y ≤ cur)
    ∧ (yearOK cur m = false → m ∉ save_clean cur movies) := by
  constructor
  · intro hm
    have h1 := mem_dedupTitles m _ [] hm
    have h2 := (List.mem_filter.mp h1).2
    unfold yearOK at h2
    cases hy : toNumericYear m.year with
    | none =>
      rw [hy] at h2
      simp at h2
    | some y =>
      rw [hy] at h2
      simp at h2
      exact ⟨y, rfl, h2.1, h2.2⟩
  · intro hno hm
    have h1 := mem_dedupTitles m _ [] hm
    have h2 := (List.mem_filter.mp h1).2
    rw [hno] at h2
    exact absurd h2 (by decide)

/-- C9 witness at concrete inputs. -/
theorem clean_year_bounds_w :
    ∃ y, toNumericYear "1994" = some y ∧ MIN_YEAR ≤ y ∧ y ≤ 2025 :=
  (clean_year_bounds 2025 [⟨"甲", "乙", "1994", 0, 0⟩]
    ⟨"甲", "乙", "1994", 0, 0⟩).1 (by decide)

/-- C10: a fragment whose rating element is present but whose text fails
the `float` conversion is rejected whole as `(None, True)` — no record
with rating 0.0 is produced (0.0 arises only when the element is absent). -/
theorem rating_parse_error_rejects (fp : String → Option Rat)
    (cf : List String) (item : Fragment) (rt : String)
    (h1 : item.ratingTag = some rt) (h2 : fp (pyStrip rt) = none) :
    parse_movie fp cf item = (none, true) := by
  have hf : ∀ t d y, finishRecord fp item t d y = (none, true) := by
    intro t d y
    simp [finishRecord, h1, h2]
  by_cases hi : item.hasInfo = false
  · exact parse_movie_noinfo fp cf item hi
  · rcases hpt : item.pTexts with _ | texts
    · rw [parse_movie_nop fp cf item hi hpt]
      exact hf _ _ _
    · rw [parse_movie_reduce fp cf item texts hi hpt]
      by_cases hc : 1 < (pLines texts).length ∧
          countryFiltered cf ((pLines texts).getD 1 []) = true
      · rw [if_pos hc]
      · rw [if_neg hc]
        exact hf _ _ _

/-- C10 witness at a concrete fragment. -/
theorem rating_parse_error_rejects_w :
    parse_movie noFloat COUNTRY_FILTER
        (⟨some "丁", true, none, some "N/A", none⟩ : Fragment) = (none, true) :=
  rating_parse_error_rejects noFloat COUNTRY_FILTER
    (⟨some "丁", true, none, some "N/A", none⟩ : Fragment) "N/A" rfl rfl

end Douban
